import Mathlib

/-!
Verification of the XFA scripting-bridge property reflection layer.

The repository contains the leaf node-wrapper declaration
`fxjs/xfa/cjx_datetimeedit.h`, in which `CJX_DateTimeEdit` derives from
`CJX_Node` and declares three script-visible properties via `JS_PROP`:
`hScrollPolicy`, `use` and `usehref`.  The generic framework (property
descriptors, per-type property tables with inherited lookup, the node
wrapper get/set operations and table construction) is not part of the
repository sources; those components are modelled here from the
specification of the binding layer (property-table resolution, wrapper
get/set dispatch, and duplicate-rejecting table construction).
-/

/-- Modelled from the spec: the script engine's dynamically-typed value
model, able to represent at least number, string, boolean and
null/undefined. -/
inductive SValue where
  | num : Int → SValue
  | str : String → SValue
  | boolean : Bool → SValue
  | null : SValue
deriving DecidableEq, Repr

/-- Modelled from the spec: a document node's attribute state, an
association from attribute name to stored value (most recent write
first). -/
def Node : Type := List (String × SValue)

/-- Modelled from the spec: read an attribute from a node; an attribute
never written reads back as the empty/unset value (empty string). -/
def getAttr (nd : Node) (a : String) : SValue :=
  (List.lookup a nd).getD (SValue.str "")

/-- Modelled from the spec: write an attribute on a node. -/
def setAttr (nd : Node) (a : String) (v : SValue) : Node :=
  (a, v) :: nd

/-- Modelled from the spec: a property descriptor pairs a property name
with a getter and an optional setter; the setter returns `none` when
the incoming script value is not representable in the native type
(a `TypeMismatch`). -/
structure Descriptor where
  name : String
  getter : Node → SValue
  setter : Option (SValue → Node → Option Node)

/-- Modelled from the spec: a property table holds a type's own
descriptors plus a back-reference to its parent type's table; the root
type's table has no parent. -/
inductive PropTable where
  | root : List Descriptor → PropTable
  | derived : List Descriptor → PropTable → PropTable

/-- A table's own descriptors (not inherited ones). -/
def PropTable.own : PropTable → List Descriptor
  | PropTable.root ds => ds
  | PropTable.derived ds _ => ds

/-- The list of tables of the proper ancestors, nearest first. -/
def PropTable.ancestors : PropTable → List PropTable
  | PropTable.root _ => []
  | PropTable.derived _ p => p :: p.ancestors

/-- The table itself followed by its ancestors, nearest first. -/
def PropTable.chain (t : PropTable) : List PropTable :=
  t :: t.ancestors

/-- Look a name up among one table's own descriptors. -/
def findDesc (ds : List Descriptor) (n : String) : Option Descriptor :=
  ds.find? (fun d => d.name == n)

/-- Modelled from the spec: `resolve(table, name)` checks the table's own
descriptors first and on a miss recurses into the parent table,
terminating at the root with `none` (`NotFound`). -/
def resolve : PropTable → String → Option Descriptor
  | PropTable.root ds, n => findDesc ds n
  | PropTable.derived ds p, n =>
    match findDesc ds n with
    | some d => some d
    | none => resolve p n

/-- Modelled from the spec: script-visible property-access errors. -/
inductive PropError where
  | UnknownProperty : PropError
  | ReadOnlyProperty : PropError
  | TypeMismatch : PropError
deriving DecidableEq, Repr

/-- Modelled from the spec: a node wrapper pairs a native node handle
with its type's property table. -/
structure Wrapper where
  table : PropTable
  node : Node

/-- Modelled from the spec: `get` resolves the name via the type's table;
if absent it signals `UnknownProperty`, else invokes the getter on the
wrapped node. -/
def Wrapper.get (w : Wrapper) (n : String) : Except PropError SValue :=
  match resolve w.table n with
  | none => Except.error PropError.UnknownProperty
  | some d => Except.ok (d.getter w.node)

/-- Modelled from the spec: `set` resolves the name; if absent it signals
`UnknownProperty`; if resolved but the descriptor has no setter it
signals `ReadOnlyProperty`; if the value cannot be converted it signals
`TypeMismatch`; otherwise it invokes the setter and returns the wrapper
over the updated node. -/
def Wrapper.set (w : Wrapper) (n : String) (v : SValue) :
    Except PropError Wrapper :=
  match resolve w.table n with
  | none => Except.error PropError.UnknownProperty
  | some d =>
    match d.setter with
    | none => Except.error PropError.ReadOnlyProperty
    | some f =>
      match f v w.node with
      | none => Except.error PropError.TypeMismatch
      | some nd => Except.ok { w with node := nd }

/-- Modelled from the spec: error raised by table construction. -/
inductive TableError where
  | DuplicateDescriptor : TableError
deriving DecidableEq, Repr

/-- Modelled from the spec: registering one descriptor into a table under
construction fails when a descriptor of the same name is already
registered there. -/
def registerDesc (ds : List Descriptor) (d : Descriptor) :
    Except TableError (List Descriptor) :=
  if ds.any (fun e => e.name == d.name) then
    Except.error TableError.DuplicateDescriptor
  else
    Except.ok (ds ++ [d])

/-- Modelled from the spec: register the declared descriptors one at a
time, failing fast on a duplicate name within the same table. -/
def registerAll (acc : List Descriptor) :
    List Descriptor → Except TableError (List Descriptor)
  | [] => Except.ok acc
  | d :: rest =>
    match registerDesc acc d with
    | Except.error e => Except.error e
    | Except.ok acc2 => registerAll acc2 rest

/-- Modelled from the spec: one-time startup construction of a type's
property table from its declared descriptor list and its (already
constructed) parent table; construction fails (process-fatal) if a
duplicate name is declared twice within the same table. -/
def mkTable (ds : List Descriptor) (parent : Option PropTable) :
    Except TableError PropTable :=
  match registerAll [] ds with
  | Except.error e => Except.error e
  | Except.ok ds2 =>
    match parent with
    | none => Except.ok (PropTable.root ds2)
    | some p => Except.ok (PropTable.derived ds2 p)

/-- Modelled from the spec: getter of a plain attribute-backed property,
re-reading current node state on every get. -/
def attrGetter (a : String) : Node → SValue :=
  fun nd => getAttr nd a

/-- Modelled from the spec: setter of a string-valued attribute-backed
property; non-string script values are not representable. -/
def strSetter (a : String) : SValue → Node → Option Node
  | SValue.str s, nd => some (setAttr nd a (SValue.str s))
  | _, _ => none

/-- The enumerated values accepted by `hScrollPolicy`. -/
def hScrollPolicyValues : List String := ["auto", "off", "on"]

/-- Modelled from the spec: setter of an enumerated string attribute;
values outside the enumeration are not representable (`TypeMismatch`). -/
def enumSetter (a : String) (allowed : List String) :
    SValue → Node → Option Node
  | SValue.str s, nd =>
    if allowed.contains s then some (setAttr nd a (SValue.str s)) else none
  | _, _ => none

/-- Descriptor of the read/write `use` property (cross-reference
linkage), backed by the node's `use` attribute. -/
def useDesc : Descriptor :=
  ⟨"use", attrGetter "use", some (strSetter "use")⟩

/-- Descriptor of the read/write `usehref` property, backed by the
node's `usehref` attribute. -/
def usehrefDesc : Descriptor :=
  ⟨"usehref", attrGetter "usehref", some (strSetter "usehref")⟩

/-- Descriptor of the read/write enumerated `hScrollPolicy` property. -/
def hScrollPolicyDesc : Descriptor :=
  ⟨"hScrollPolicy", attrGetter "hScrollPolicy",
    some (enumSetter "hScrollPolicy" hScrollPolicyValues)⟩

/-- Modelled from the spec: the common base wrapper type `CJX_Node`
(its header is not among the repository sources) provides the
cross-reference linkage properties `use` and `usehref` to every
node-wrapper type. -/
def cjx_node_descs : List Descriptor := [useDesc, usehrefDesc]

/-- Modelled from the spec: the base wrapper type's property table
(root of the inheritance chain in this fragment). -/
def cjx_node_table : PropTable := PropTable.root cjx_node_descs

/-- The own property declarations of `CJX_DateTimeEdit`, exactly as in
`fxjs/xfa/cjx_datetimeedit.h`: `JS_PROP(hScrollPolicy);`
`JS_PROP(use);` `JS_PROP(usehref);`. -/
def cjx_datetimeedit_descs : List Descriptor :=
  [hScrollPolicyDesc, useDesc, usehrefDesc]

/-- The own property names of `CJX_DateTimeEdit`. -/
def cjx_datetimeedit_ownPropNames : List String :=
  cjx_datetimeedit_descs.map Descriptor.name

/-- The property table of the leaf wrapper type `CJX_DateTimeEdit`,
chained to the base table `cjx_node_table` per `CJX_DateTimeEdit :
public CJX_Node`. -/
def cjx_datetimeedit_table : PropTable :=
  PropTable.derived cjx_datetimeedit_descs cjx_node_table

/-- The accepted script-value domain of each of the leaf type's
properties: `hScrollPolicy` accepts exactly its enumerated string
values; `use` and `usehref` accept every string. -/
def accepts : String → SValue → Bool
  | "hScrollPolicy", SValue.str s => hScrollPolicyValues.contains s
  | "hScrollPolicy", _ => false
  | _, SValue.str _ => true
  | _, _ => false

/-- A getter-only (read-only) descriptor, used to exercise the
`ReadOnlyProperty` path of the dispatcher. -/
def readOnlyDesc : Descriptor :=
  ⟨"rawValue", attrGetter "rawValue", none⟩

/-- A derived table declaring one read-only property over the common
base table. -/
def readOnlyTable : PropTable :=
  PropTable.derived [readOnlyDesc] cjx_node_table

/-! ### General lemmas about the resolution chain -/

/-- Resolution equation on a root table. -/
theorem resolve_root (ds : List Descriptor) (n : String) :
    resolve (PropTable.root ds) n = findDesc ds n := rfl

/-- Resolution equation on a derived table. -/
theorem resolve_derived (ds : List Descriptor) (p : PropTable) (n : String) :
    resolve (PropTable.derived ds p) n =
      match findDesc ds n with
      | some d => some d
      | none => resolve p n := rfl

/-- A `findSome?` over a list whose every element maps to `none` is `none`. -/
theorem findSome?_none {α β : Type} (f : α → Option β) :
    ∀ l : List α, (∀ a ∈ l, f a = none) → l.findSome? f = none
  | [], _ => List.findSome?_nil
  | a :: l, h => by
    rw [List.findSome?_cons, h a (List.mem_cons_self a l)]
    exact findSome?_none f l (fun x hx => h x (List.mem_cons_of_mem a hx))

/-- Resolution walks the chain of own-descriptor sets nearest-first and
returns the first hit. -/
theorem resolve_eq_chain :
    ∀ (t : PropTable) (n : String),
      resolve t n = t.chain.findSome? (fun u => findDesc u.own n)
  | PropTable.root ds, n => by
    rw [resolve_root, PropTable.chain, List.findSome?_cons,
      show PropTable.own (PropTable.root ds) = ds from rfl,
      show PropTable.ancestors (PropTable.root ds) = ([] : List PropTable) from rfl,
      List.findSome?_nil]
    cases findDesc ds n <;> rfl
  | PropTable.derived ds p, n => by
    rw [resolve_derived, PropTable.chain, List.findSome?_cons,
      show PropTable.own (PropTable.derived ds p) = ds from rfl,
      show PropTable.ancestors (PropTable.derived ds p) = p.chain from rfl,
      ← resolve_eq_chain p n]
    cases findDesc ds n <;> rfl

/-- A duplicate-name test over descriptors, phrased as membership of the
name list. -/
theorem any_name_eq_true_iff (ds : List Descriptor) (s : String) :
    (ds.any fun e => e.name == s) = true ↔ s ∈ ds.map Descriptor.name := by
  rw [List.any_eq_true]
  constructor
  · rintro ⟨e, he, hbe⟩
    exact List.mem_map.mpr ⟨e, he, by simpa using hbe⟩
  · intro h
    rcases List.mem_map.mp h with ⟨e, he, hname⟩
    exact ⟨e, he, by simp [hname]⟩

/-- Stepwise registration fails with `DuplicateDescriptor` whenever the
combined name list (already-registered plus still-to-register) has a
repeated name. -/
theorem registerAll_dup_error :
    ∀ (l acc : List Descriptor),
      (acc.map Descriptor.name).Nodup →
      ¬ (acc.map Descriptor.name ++ l.map Descriptor.name).Nodup →
      registerAll acc l = Except.error TableError.DuplicateDescriptor
  | [], acc, hacc, hdup => by
    exact absurd (by simpa using hacc) hdup
  | d :: rest, acc, hacc, hdup => by
    have hstep : registerAll acc (d :: rest) =
        match registerDesc acc d with
        | Except.error e => Except.error e
        | Except.ok acc2 => registerAll acc2 rest := rfl
    by_cases hmem : d.name ∈ acc.map Descriptor.name
    · have hany : (acc.any fun e => e.name == d.name) = true :=
        (any_name_eq_true_iff acc d.name).mpr hmem
      rw [hstep]
      simp only [registerDesc, if_pos hany]
    · have hany : ¬ ((acc.any fun e => e.name == d.name) = true) := by
        intro h
        exact hmem ((any_name_eq_true_iff acc d.name).mp h)
      rw [hstep]
      simp only [registerDesc, if_neg hany]
      apply registerAll_dup_error rest (acc ++ [d])
      · rw [List.map_append, List.nodup_append]
        refine ⟨hacc, List.nodup_singleton _, ?_⟩
        intro a ha hb
        have : a = d.name := by simpa using hb
        subst this
        exact hmem ha
      · intro hcon
        apply hdup
        rw [List.map_append, List.append_assoc] at hcon
        simpa using hcon

/-! ### Claim theorems -/

/-- Claim C1, counterexample: the claim that `use` and `usehref` are not
redeclared in the leaf type's own property set is false — the header
`cjx_datetimeedit.h` declares `JS_PROP(use);` and `JS_PROP(usehref);`
directly on `CJX_DateTimeEdit`, so both names occur among the leaf
type's own property declarations. -/
theorem use_usehref_not_redeclared_is_false :
    ¬ ("use" ∉ cjx_datetimeedit_ownPropNames ∧
        "usehref" ∉ cjx_datetimeedit_ownPropNames) := by decide

/-- Claim C1, amended: `use` and `usehref` are declared on the common
base wrapper type, but they are also redeclared in the leaf type's own
property set (shadowing the base's declarations); resolution on the leaf
table yields the leaf's own descriptors for both names. -/
theorem use_usehref_declared_in_leaf_and_base :
    "use" ∈ cjx_datetimeedit_ownPropNames ∧
      "usehref" ∈ cjx_datetimeedit_ownPropNames ∧
      "use" ∈ cjx_node_descs.map Descriptor.name ∧
      "usehref" ∈ cjx_node_descs.map Descriptor.name ∧
      resolve cjx_datetimeedit_table "use" = some useDesc ∧
      resolve cjx_datetimeedit_table "usehref" = some usehrefDesc :=
  ⟨by decide, by decide, by decide, by decide, rfl, rfl⟩

/-- Claim C2: for every type `T` and property name `P` declared directly
on `T` (a hit among `T`'s own descriptors), `resolve(T.table, P)`
returns `T`'s own descriptor, never delegating to a supertype — even
when a supertype also declares `P`. -/
theorem resolve_returns_own_descriptor (t : PropTable) (n : String)
    (d : Descriptor) (h : findDesc t.own n = some d) :
    resolve t n = some d := by
  cases t with
  | root ds =>
    rw [resolve_root]
    exact h
  | derived ds p =>
    rw [resolve_derived,
      show findDesc ds n = some d from h]

/-- Witness for C2: `use` is declared directly on `CJX_DateTimeEdit`
(shadowing the base's declaration), and resolution on the leaf table
returns the leaf's own `use` descriptor. -/
theorem resolve_returns_own_descriptor_witness :
    findDesc cjx_datetimeedit_table.own "use" = some useDesc ∧
      resolve cjx_datetimeedit_table "use" = some useDesc :=
  ⟨rfl, resolve_returns_own_descriptor cjx_datetimeedit_table "use" useDesc rfl⟩

/-- Claim C3: for every type `T` with no own descriptor for `P`,
resolution delegates to the ancestor chain and returns the first
(nearest ancestor's) hit; in particular, if some ancestor declares `P`,
the nearest such ancestor's descriptor is returned. -/
theorem resolve_falls_back_to_nearest_ancestor (t : PropTable) (n : String)
    (h : findDesc t.own n = none) :
    resolve t n = t.ancestors.findSome? (fun a => findDesc a.own n) := by
  rw [resolve_eq_chain t n, PropTable.chain, List.findSome?_cons, h]

/-- Witness for C3: a derived table declaring only `hScrollPolicy` has no
own descriptor for `use`, and resolution returns the base table's `use`
descriptor. -/
theorem resolve_falls_back_witness :
    findDesc (PropTable.derived [hScrollPolicyDesc] cjx_node_table).own
        "use" = none ∧
      resolve (PropTable.derived [hScrollPolicyDesc] cjx_node_table) "use" =
        (PropTable.derived [hScrollPolicyDesc] cjx_node_table).ancestors.findSome?
          (fun a => findDesc a.own "use") ∧
      resolve (PropTable.derived [hScrollPolicyDesc] cjx_node_table) "use" =
        some useDesc :=
  ⟨rfl,
    resolve_falls_back_to_nearest_ancestor
      (PropTable.derived [hScrollPolicyDesc] cjx_node_table) "use" rfl,
    rfl⟩

/-- Claim C4: for every type `T` and name `P` declared nowhere in `T`'s
ancestor chain, `resolve` returns `NotFound` (`none`), and both `get`
and `set` on a wrapper of type `T` raise `UnknownProperty` — a
script-visible error value, not a process fault. -/
theorem unknown_property_raises (t : PropTable) (nd : Node) (n : String)
    (h : ∀ u ∈ t.chain, findDesc (PropTable.own u) n = none) :
    resolve t n = none ∧
      Wrapper.get ⟨t, nd⟩ n = Except.error PropError.UnknownProperty ∧
      ∀ v, Wrapper.set ⟨t, nd⟩ n v = Except.error PropError.UnknownProperty := by
  have hres : resolve t n = none := by
    rw [resolve_eq_chain t n]
    exact findSome?_none _ t.chain h
  refine ⟨hres, ?_, ?_⟩
  · simp [Wrapper.get, hres]
  · intro v
    simp [Wrapper.set, hres]

/-- Witness for C4: the name `calculate` is not declared anywhere in the
`CJX_DateTimeEdit` chain, so resolution misses and both accessors raise
`UnknownProperty`. -/
theorem unknown_property_raises_witness :
    resolve cjx_datetimeedit_table "calculate" = none ∧
      Wrapper.get ⟨cjx_datetimeedit_table, []⟩ "calculate" =
        Except.error PropError.UnknownProperty ∧
      Wrapper.set ⟨cjx_datetimeedit_table, []⟩ "calculate" SValue.null =
        Except.error PropError.UnknownProperty :=
  have h := unknown_property_raises cjx_datetimeedit_table [] "calculate"
    (by
      intro u hu
      have hu' : u = cjx_datetimeedit_table ∨ u = cjx_node_table := by
        simpa [PropTable.chain, cjx_datetimeedit_table, cjx_node_table,
          PropTable.ancestors] using hu
      rcases hu' with h1 | h1 <;> subst h1 <;> rfl)
  ⟨h.1, h.2.1, h.2.2 SValue.null⟩

/-- Claim C5: whenever resolution yields a descriptor with no setter,
`set` raises `ReadOnlyProperty` for every value; since the dispatcher
rejects the write before any setter runs, no updated node is produced
and the underlying document node is unchanged. -/
theorem readonly_set_raises (w : Wrapper) (n : String) (d : Descriptor)
    (v : SValue) (hres : resolve w.table n = some d)
    (hset : d.setter = none) :
    Wrapper.set w n v = Except.error PropError.ReadOnlyProperty := by
  simp [Wrapper.set, hres, hset]

/-- Witness for C5: on a table with the read-only `rawValue` descriptor,
every attempted write raises `ReadOnlyProperty`. -/
theorem readonly_set_raises_witness :
    resolve readOnlyTable "rawValue" = some readOnlyDesc ∧
      Wrapper.set ⟨readOnlyTable, []⟩ "rawValue" (SValue.str "x") =
        Except.error PropError.ReadOnlyProperty :=
  ⟨rfl,
    readonly_set_raises ⟨readOnlyTable, []⟩ "rawValue" readOnlyDesc
      (SValue.str "x") rfl rfl⟩

/-- Claim C6: constructing a property table whose declared descriptor
list repeats a name fails at construction time with
`DuplicateDescriptor`; it never silently keeps one of the duplicates. -/
theorem duplicate_descriptor_rejected (ds : List Descriptor)
    (parent : Option PropTable)
    (hdup : ¬ (ds.map Descriptor.name).Nodup) :
    mkTable ds parent = Except.error TableError.DuplicateDescriptor := by
  have h := registerAll_dup_error ds [] (by simp) (by simpa using hdup)
  have hstep : mkTable ds parent =
      match registerAll [] ds with
      | Except.error e => Except.error e
      | Except.ok ds2 =>
        match parent with
        | none => Except.ok (PropTable.root ds2)
        | some p => Except.ok (PropTable.derived ds2 p) := rfl
  rw [hstep, h]

/-- Witness for C6: declaring `use` twice in one table makes
construction fail with `DuplicateDescriptor`. -/
theorem duplicate_descriptor_rejected_witness :
    ¬ (([useDesc, useDesc].map Descriptor.name).Nodup) ∧
      mkTable [useDesc, useDesc] (some cjx_node_table) =
        Except.error TableError.DuplicateDescriptor :=
  ⟨by decide,
    duplicate_descriptor_rejected [useDesc, useDesc] (some cjx_node_table)
      (by decide)⟩

/-- Claim C7: for every read/write property `P` of the leaf type and
every value `V` in `P`'s accepted domain, `set(P, V)` followed by
`get(P)` on the same wrapper returns exactly `V` (string-valued
attributes round-trip without further coercion). -/
theorem set_get_roundtrip (nd : Node) (p : String) (v : SValue)
    (hp : p ∈ cjx_datetimeedit_ownPropNames) (hv : accepts p v = true) :
    ∃ w', Wrapper.set ⟨cjx_datetimeedit_table, nd⟩ p v = Except.ok w' ∧
      Wrapper.get w' p = Except.ok v := by
  have hp' : p = "hScrollPolicy" ∨ p = "use" ∨ p = "usehref" := by
    have hnames : cjx_datetimeedit_ownPropNames =
        ["hScrollPolicy", "use", "usehref"] := rfl
    rw [hnames] at hp
    simpa using hp
  rcases hp' with h | h | h <;> subst h
  · cases v with
    | str s =>
      have hs : hScrollPolicyValues.contains s = true := by
        simpa [accepts] using hv
      refine ⟨⟨cjx_datetimeedit_table,
        setAttr nd "hScrollPolicy" (SValue.str s)⟩, ?_, rfl⟩
      have hred : Wrapper.set ⟨cjx_datetimeedit_table, nd⟩ "hScrollPolicy"
          (SValue.str s) =
          match enumSetter "hScrollPolicy" hScrollPolicyValues
              (SValue.str s) nd with
          | none => Except.error PropError.TypeMismatch
          | some nd2 => Except.ok ⟨cjx_datetimeedit_table, nd2⟩ := rfl
      rw [hred]
      have hs' : s ∈ hScrollPolicyValues := by simpa using hs
      simp [enumSetter, setAttr, hs']
    | num i => exact absurd hv (by simp [accepts])
    | boolean b => exact absurd hv (by simp [accepts])
    | null => exact absurd hv (by simp [accepts])
  · cases v with
    | str s =>
      exact ⟨⟨cjx_datetimeedit_table, setAttr nd "use" (SValue.str s)⟩,
        rfl, rfl⟩
    | num i => exact absurd hv (by simp [accepts])
    | boolean b => exact absurd hv (by simp [accepts])
    | null => exact absurd hv (by simp [accepts])
  · cases v with
    | str s =>
      exact ⟨⟨cjx_datetimeedit_table, setAttr nd "usehref" (SValue.str s)⟩,
        rfl, rfl⟩
    | num i => exact absurd hv (by simp [accepts])
    | boolean b => exact absurd hv (by simp [accepts])
    | null => exact absurd hv (by simp [accepts])

/-- Witness for C7: writing `"tmpl"` to `use` on a fresh wrapper and
reading it back returns `"tmpl"`. -/
theorem set_get_roundtrip_witness :
    "use" ∈ cjx_datetimeedit_ownPropNames ∧
      accepts "use" (SValue.str "tmpl") = true ∧
      ∃ w', Wrapper.set ⟨cjx_datetimeedit_table, []⟩ "use"
          (SValue.str "tmpl") = Except.ok w' ∧
        Wrapper.get w' "use" = Except.ok (SValue.str "tmpl") :=
  ⟨by decide, by decide,
    set_get_roundtrip [] "use" (SValue.str "tmpl") (by decide) (by decide)⟩

/-- Claim C8: on a `CJX_DateTimeEdit` wrapper, setting `hScrollPolicy`
to `"auto"` and reading it back yields `"auto"`; a subsequent set to any
string outside the supported enumeration raises `TypeMismatch` and, the
write having been rejected before the setter ran, the stored value still
reads back as `"auto"`. -/
theorem hScrollPolicy_auto_scenario (nd : Node) (s : String)
    (hs : hScrollPolicyValues.contains s = false) :
    ∃ w1, Wrapper.set ⟨cjx_datetimeedit_table, nd⟩ "hScrollPolicy"
        (SValue.str "auto") = Except.ok w1 ∧
      Wrapper.get w1 "hScrollPolicy" = Except.ok (SValue.str "auto") ∧
      Wrapper.set w1 "hScrollPolicy" (SValue.str s) =
        Except.error PropError.TypeMismatch ∧
      Wrapper.get w1 "hScrollPolicy" = Except.ok (SValue.str "auto") := by
  refine ⟨⟨cjx_datetimeedit_table,
    setAttr nd "hScrollPolicy" (SValue.str "auto")⟩, rfl, rfl, ?_, rfl⟩
  have hred : Wrapper.set ⟨cjx_datetimeedit_table,
      setAttr nd "hScrollPolicy" (SValue.str "auto")⟩ "hScrollPolicy"
      (SValue.str s) =
      match enumSetter "hScrollPolicy" hScrollPolicyValues (SValue.str s)
          (setAttr nd "hScrollPolicy" (SValue.str "auto")) with
      | none => Except.error PropError.TypeMismatch
      | some nd2 => Except.ok ⟨cjx_datetimeedit_table, nd2⟩ := rfl
  rw [hred]
  have hs' : s ∉ hScrollPolicyValues := by simpa using hs
  simp [enumSetter, hs']

/-- Witness for C8: the value `"bogus"` is outside the enumeration, so
the scenario holds with it concretely. -/
theorem hScrollPolicy_auto_scenario_witness :
    hScrollPolicyValues.contains "bogus" = false ∧
      ∃ w1, Wrapper.set ⟨cjx_datetimeedit_table, []⟩ "hScrollPolicy"
          (SValue.str "auto") = Except.ok w1 ∧
        Wrapper.get w1 "hScrollPolicy" = Except.ok (SValue.str "auto") ∧
        Wrapper.set w1 "hScrollPolicy" (SValue.str "bogus") =
          Except.error PropError.TypeMismatch ∧
        Wrapper.get w1 "hScrollPolicy" = Except.ok (SValue.str "auto") :=
  ⟨by decide, hScrollPolicy_auto_scenario [] "bogus" (by decide)⟩

/-- Claim C9: the own property declarations of `CJX_DateTimeEdit` are
exactly the three pairwise-distinct names `hScrollPolicy`, `use` and
`usehref`; the name list has no duplicates, so constructing its table
over the base table succeeds. -/
theorem leaf_own_props_exact :
    cjx_datetimeedit_ownPropNames = ["hScrollPolicy", "use", "usehref"] ∧
      cjx_datetimeedit_ownPropNames.Nodup ∧
      mkTable cjx_datetimeedit_descs (some cjx_node_table) =
        Except.ok cjx_datetimeedit_table :=
  ⟨rfl, by decide, rfl⟩

/-- Claim C10: every property name resolvable on the base type
`CJX_Node`'s table is also resolvable on `CJX_DateTimeEdit`'s table:
deriving only adds or shadows descriptors, never removes any. -/
theorem base_resolvable_implies_leaf_resolvable (n : String)
    (h : (resolve cjx_node_table n).isSome = true) :
    (resolve cjx_datetimeedit_table n).isSome = true := by
  have hred : resolve cjx_datetimeedit_table n =
      match findDesc cjx_datetimeedit_descs n with
      | some d => some d
      | none => resolve cjx_node_table n := rfl
  rw [hred]
  cases findDesc cjx_datetimeedit_descs n with
  | some d => rfl
  | none => exact h

/-- Witness for C10: `usehref` resolves on the base table and therefore
also on the leaf table. -/
theorem base_resolvable_implies_leaf_resolvable_witness :
    (resolve cjx_node_table "usehref").isSome = true ∧
      (resolve cjx_datetimeedit_table "usehref").isSome = true :=
  ⟨rfl, base_resolvable_implies_leaf_resolvable "usehref" rfl⟩
